import Mathlib

set_option autoImplicit false

/-!
Shallow embedding of the `intertrait` runtime core (`src/src/lib.rs`):
a global registry mapping `(TypeId of a concrete type, TypeId of Caster<T>)`
to a type-erased caster, and the blanket `CastTo` operations
(`ref_to`, `mut_to`, `box_to`, `impls`) built on `CastFrom` erasure accessors.

Rust `TypeId`s are modelled as natural numbers.  Trait identities are natural
numbers as well; the `TypeId` of the trait object type `dyn T` and of the
specialized struct type `Caster<T>` are injective encodings keeping the three
kinds of types (concrete structs, trait objects, caster structs) disjoint.
-/

namespace Intertrait

abbrev TypeId := Nat

/-- A type-erased Rust value (`dyn Any` view): the runtime `TypeId` of the
concrete type that was erased, plus an abstract payload. -/
structure AnyVal where
  tyId : TypeId
  data : Nat
deriving DecidableEq, Repr

/-- The `TypeId` of the trait-object type `dyn T` for trait identity `t`. -/
def typeIdOfTrait (t : Nat) : Nat := 3 * t

/-- The `TypeId` of the specialized struct type `Caster<dyn T>` for trait
identity `t` (Rust `TypeId::of::<Caster<T>>()`). -/
def typeIdOfCaster (t : Nat) : Nat := 3 * t + 1

/-- Result of invoking one of a caster's function pointers: the returned
trait-object view of the value, or a panic (a failed `unwrap` of the
internal downcast). -/
inductive FnResult where
  | ok (v : AnyVal)
  | panicked
deriving DecidableEq, Repr

/-- `Caster<T>` (src/src/lib.rs:104-116): three function pointers casting a
`dyn Any` view to a trait object of the target trait `T`.  The `target` field
records the trait `T` the struct type is specialized to; in Rust it is part of
the type, and determines the runtime `TypeId` of a boxed caster. -/
structure Caster where
  target : Nat
  cast_ref : AnyVal → FnResult
  cast_mut : AnyVal → FnResult
  cast_box : AnyVal → FnResult

/-- The runtime `TypeId` of a boxed caster value
(`(*caster).type_id()` in src/src/lib.rs:92): the `TypeId` of `Caster<T>`
for the target trait `T` the caster is specialized to. -/
def Caster.typeId (c : Caster) : TypeId := typeIdOfCaster c.target

/-- The caster produced by a registration entry for concrete type `S` and
target trait `T` (src/src/lib.rs:328-336, macros/src/gen_caster.rs): each
function downcasts the erased value to `S` — succeeding exactly when the
runtime type is `S` — and returns it as a `dyn T` view; a failed downcast
is an `unwrap` panic. -/
def makeCaster (S : TypeId) (T : Nat) : Caster where
  target := T
  cast_ref := fun a => if a.tyId = S then .ok a else .panicked
  cast_mut := fun a => if a.tyId = S then .ok a else .panicked
  cast_box := fun a => if a.tyId = S then .ok a else .panicked

/-- The registry: a finite map from `(TypeId, TypeId)` keys to boxed casters,
modelled as the association list of inserted entries. -/
abbrev CasterMap := List ((TypeId × TypeId) × Caster)

/-- `HashMap` lookup semantics for a map built by inserting the listed
entries in order: the LAST entry with the key wins (later `insert`s of a
duplicate key overwrite earlier ones in `collect`). -/
def lookupLast (m : CasterMap) (k : TypeId × TypeId) : Option Caster :=
  match m with
  | [] => none
  | e :: rest =>
    match lookupLast rest k with
    | some c => some c
    | none => if e.1 = k then some e.2 else none

/-- `HashMap::contains_key` (src/src/lib.rs:302). -/
def containsKey (m : CasterMap) (k : TypeId × TypeId) : Bool :=
  m.any (fun e => decide (e.1 = k))

/-- How one registration entry `(type_id, caster)` is keyed when the registry
is built (src/src/lib.rs:90-93): the key is the pair of the concrete type's
`TypeId` and the runtime `TypeId` of the boxed caster itself. -/
def buildEntry (e : TypeId × Caster) : (TypeId × TypeId) × Caster :=
  ((e.1, e.2.typeId), e.2)

/-- `CASTER_MAP` (src/src/lib.rs:86-95) as a function of the evaluated
registration entries: every entry is keyed by `buildEntry` and collected. -/
def CASTER_MAP (casters : List (TypeId × Caster)) : CasterMap :=
  casters.map buildEntry

/-- The `Lazy` body of `CASTER_MAP` as written in the source: the distributed
slice `CASTERS` is a list of zero-argument constructor functions, each of
which is called once and its result keyed by `buildEntry`. -/
def buildFromConstructors (fs : List (Unit → TypeId × Caster)) : CasterMap :=
  fs.map (fun f => buildEntry (f ()))

/-- `caster::<T>(type_id)` (src/src/lib.rs:119-123): looks up
`(type_id, TypeId::of::<Caster<T>>())` in `CASTER_MAP` and downcasts the boxed
caster to `Caster<T>`; the downcast compares the box's runtime `TypeId` with
`TypeId::of::<Caster<T>>()`. -/
def caster (m : CasterMap) (T : Nat) (type_id : TypeId) : Option Caster :=
  (lookupLast m (type_id, typeIdOfCaster T)).bind
    (fun c => if c.typeId = typeIdOfCaster T then some c else none)

/-- A source reference on which the blanket `CastTo` impl is invoked:
  * `sized v` — a `Sized + 'static` value used directly through the blanket
    `CastFrom` impl (src/src/lib.rs:153-165); the value IS the erased view,
    so its own `TypeId` is exposed;
  * `dynAny v` — a `dyn Any` trait object over an erased value
    (src/src/lib.rs:167-179);
  * `traitObj iface v` — a trait object `dyn S` (with `S: CastFrom` the
    interface `iface`) over an erased value; the accessors dispatch through
    the vtable to the concrete type's blanket impl, exposing `v` itself. -/
inductive Source where
  | sized (v : AnyVal)
  | dynAny (v : AnyVal)
  | traitObj (iface : Nat) (v : AnyVal)
deriving DecidableEq, Repr

/-- `CastFrom::ref_any` — every impl returns `self` as the erased view. -/
def ref_any : Source → AnyVal
  | .sized v => v
  | .dynAny v => v
  | .traitObj _ v => v

/-- `CastFrom::mut_any` — every impl returns `self` as the erased view. -/
def mut_any : Source → AnyVal
  | .sized v => v
  | .dynAny v => v
  | .traitObj _ v => v

/-- `CastFrom::box_any` — every impl returns `self` as the erased box. -/
def box_any : Source → AnyVal
  | .sized v => v
  | .dynAny v => v
  | .traitObj _ v => v

/-- `self.type_id()` as called in `impls` (src/src/lib.rs:302): for a sized
type it is that type's `TypeId`; for a trait object it dispatches dynamically
to the underlying concrete type. -/
def selfTypeId (s : Source) : TypeId := (ref_any s).tyId

/-- Outcome of a cast operation: a trait-object view of the value, a miss
(the `None` early return), or a panic propagated from a caster function. -/
inductive CastOutcome where
  | ok (v : AnyVal)
  | miss
  | panicked
deriving DecidableEq, Repr

/-- Whether a cast outcome is a successful (non-empty) result. -/
def CastOutcome.isOk : CastOutcome → Bool
  | .ok _ => true
  | _ => false

/-- `CastTo::ref_to` (src/src/lib.rs:283-287): erase via `ref_any`, look up
the caster by the view's runtime `TypeId`, return `None` on miss, else invoke
`cast_ref`. -/
def ref_to (m : CasterMap) (T : Nat) (s : Source) : CastOutcome :=
  let any := ref_any s
  match caster m T any.tyId with
  | none => .miss
  | some c =>
    match c.cast_ref any with
    | .ok v => .ok v
    | .panicked => .panicked

/-- `CastTo::mut_to` (src/src/lib.rs:289-293). -/
def mut_to (m : CasterMap) (T : Nat) (s : Source) : CastOutcome :=
  let any := mut_any s
  match caster m T any.tyId with
  | none => .miss
  | some c =>
    match c.cast_mut any with
    | .ok v => .ok v
    | .panicked => .panicked

/-- `CastTo::box_to` (src/src/lib.rs:295-299): consumes the box via
`box_any`; on a caster miss the `?` operator returns `None` — the function's
return type is `Option<Box<T>>`, so a miss carries nothing back. -/
def box_to (m : CasterMap) (T : Nat) (s : Source) : CastOutcome :=
  let any := box_any s
  match caster m T any.tyId with
  | none => .miss
  | some c =>
    match c.cast_box any with
    | .ok v => .ok v
    | .panicked => .panicked

/-- `CastTo::impls` (src/src/lib.rs:301-303): a pure `contains_key` test on
the key `(self.type_id(), TypeId::of::<Caster<T>>())`. -/
def impls (m : CasterMap) (T : Nat) (s : Source) : Bool :=
  containsKey m (selfTypeId s, typeIdOfCaster T)

/-- Whether the list of evaluated registration entries contains an entry for
the pair (concrete type `tid`, target trait `T`). -/
def hasEntry (cs : List (TypeId × Caster)) (tid : TypeId) (T : Nat) : Bool :=
  cs.any (fun e => decide (e.1 = tid) && decide (e.2.target = T))

/-- A registration-entry list is well formed when every entry is the one the
code generator emits: the caster stored for concrete type `S` downcasts to
that same `S` (macros/src/gen_caster.rs, src/src/lib.rs:328-336). -/
def WellFormed (cs : List (TypeId × Caster)) : Prop :=
  ∀ e ∈ cs, e.2 = makeCaster e.1 e.2.target

/-! Concrete scenario types (spec §8): concrete type `Widget` (and a
`Box<dyn Trait>` smart-pointer wrapper type), and traits `Describable`
(registered for `Widget`), `Serializable` (never registered), `Renderable`
(implemented but not registered). Concrete struct `TypeId`s are chosen
in the residue class 2 mod 3, disjoint from trait-object and caster
`TypeId`s. -/

def widgetTypeId : TypeId := 2

def boxWrapperTypeId : TypeId := 5

def describableTrait : Nat := 0

def serializableTrait : Nat := 1

def renderableTrait : Nat := 2

/-- A concrete `Widget` value. -/
def widget : AnyVal := ⟨widgetTypeId, 7⟩

/-- The registration entries of the scenario program: `Widget` registers
`Describable` only. -/
def exampleCasters : List (TypeId × Caster) :=
  [(widgetTypeId, makeCaster widgetTypeId describableTrait)]

/-- The built registry of the scenario program. -/
def exampleMap : CasterMap := CASTER_MAP exampleCasters

/-- A `Box<dyn Trait>` smart-pointer wrapper value holding a `Widget`: used
directly as a `Sized` type, it exposes the wrapper type's own `TypeId`. -/
def boxWidget : AnyVal := ⟨boxWrapperTypeId, 7⟩

/-- Two registration entries with distinct keys, in one order. -/
def twoCasters : List (TypeId × Caster) :=
  [(widgetTypeId, makeCaster widgetTypeId describableTrait),
   (boxWrapperTypeId, makeCaster boxWrapperTypeId describableTrait)]

/-- The same two registration entries, consumed in the other order. -/
def twoCastersSwapped : List (TypeId × Caster) :=
  [(boxWrapperTypeId, makeCaster boxWrapperTypeId describableTrait),
   (widgetTypeId, makeCaster widgetTypeId describableTrait)]

/-- The results of `n` repeated `impls` calls on the same unchanged value
against the same built registry. -/
def implsCalls (m : CasterMap) (T : Nat) (s : Source) : Nat → List Bool
  | 0 => []
  | n + 1 => impls m T s :: implsCalls m T s n

/-- The results of `n` repeated `ref_to` calls on the same unchanged value
against the same built registry. -/
def refToCalls (m : CasterMap) (T : Nat) (s : Source) : Nat → List CastOutcome
  | 0 => []
  | n + 1 => ref_to m T s :: refToCalls m T s n

/-! ### Helper lemmas about the registry -/

lemma typeIdOfCaster_injective : Function.Injective typeIdOfCaster := by
  intro a b h
  unfold typeIdOfCaster at h
  omega

lemma lookupLast_isSome (m : CasterMap) (k : TypeId × TypeId) :
    (lookupLast m k).isSome = containsKey m k := by
  induction m with
  | nil => rfl
  | cons e rest ih =>
    rw [containsKey, List.any_cons]
    rw [containsKey] at ih
    cases h : lookupLast rest k with
    | some c =>
      rw [h] at ih
      simp only [Option.isSome_some] at ih
      simp only [lookupLast, h, Option.isSome_some]
      simp [← ih]
    | none =>
      rw [h] at ih
      simp only [Option.isSome_none] at ih
      simp only [lookupLast, h]
      by_cases hk : e.1 = k
      · simp [hk]
      · simp [hk, ← ih]

lemma lookupLast_mem {m : CasterMap} {k : TypeId × TypeId} {c : Caster}
    (h : lookupLast m k = some c) : (k, c) ∈ m := by
  induction m with
  | nil => simp [lookupLast] at h
  | cons e rest ih =>
    obtain ⟨k1, c1⟩ := e
    simp only [lookupLast] at h
    cases hr : lookupLast rest k with
    | some c' =>
      rw [hr] at h
      cases h
      exact List.mem_cons_of_mem _ (ih hr)
    | none =>
      rw [hr] at h
      by_cases hk : k1 = k
      · subst hk
        simp at h
        subst h
        exact List.mem_cons_self _ _
      · have : ((k1, c1) : (TypeId × TypeId) × Caster).1 = k ↔ False := by
          simp [hk]
        simp [this] at h

lemma lookupLast_CASTER_MAP_some {cs : List (TypeId × Caster)} {tid : TypeId}
    {T : Nat} {c : Caster}
    (h : lookupLast (CASTER_MAP cs) (tid, typeIdOfCaster T) = some c) :
    (tid, c) ∈ cs ∧ c.typeId = typeIdOfCaster T := by
  have hmem := lookupLast_mem h
  simp only [CASTER_MAP, List.mem_map] at hmem
  obtain ⟨⟨p1, p2⟩, hp, hbe⟩ := hmem
  simp only [buildEntry, Prod.mk.injEq] at hbe
  obtain ⟨⟨h1, h2⟩, h3⟩ := hbe
  subst h1
  subst h3
  exact ⟨hp, h2⟩

/-- On a registry built by `CASTER_MAP`, the downcast inside `caster` never
filters anything out: the lookup result is returned as is. -/
lemma caster_eq_lookupLast (cs : List (TypeId × Caster)) (T : Nat) (tid : TypeId) :
    caster (CASTER_MAP cs) T tid = lookupLast (CASTER_MAP cs) (tid, typeIdOfCaster T) := by
  rw [caster]
  cases h : lookupLast (CASTER_MAP cs) (tid, typeIdOfCaster T) with
  | none => rfl
  | some c =>
    have := (lookupLast_CASTER_MAP_some h).2
    simp [this]

lemma containsKey_CASTER_MAP (cs : List (TypeId × Caster)) (tid : TypeId) (T : Nat) :
    containsKey (CASTER_MAP cs) (tid, typeIdOfCaster T) = hasEntry cs tid T := by
  induction cs with
  | nil => rfl
  | cons e rest ih =>
    have hiff : typeIdOfCaster e.2.target = typeIdOfCaster T ↔ e.2.target = T :=
      ⟨fun h => typeIdOfCaster_injective h, fun h => by rw [h]⟩
    unfold containsKey hasEntry CASTER_MAP at ih ⊢
    simp only [List.map_cons, List.any_cons]
    rw [ih]
    simp only [buildEntry, Caster.typeId, Prod.mk.injEq]
    rw [decide_eq_decide.mpr (and_congr_right fun _ => hiff), Bool.decide_and]

lemma lookupLast_isSome_iff_hasEntry (cs : List (TypeId × Caster)) (tid : TypeId) (T : Nat) :
    (lookupLast (CASTER_MAP cs) (tid, typeIdOfCaster T)).isSome = hasEntry cs tid T := by
  rw [lookupLast_isSome, containsKey_CASTER_MAP]

lemma caster_none_of_no_entry {cs : List (TypeId × Caster)} {tid : TypeId} {T : Nat}
    (h : hasEntry cs tid T = false) :
    caster (CASTER_MAP cs) T tid = none := by
  rw [caster_eq_lookupLast]
  have := lookupLast_isSome_iff_hasEntry cs tid T
  rw [h] at this
  exact Option.not_isSome_iff_eq_none.mp (by simp [this])

lemma caster_isSome_of_entry {cs : List (TypeId × Caster)} {tid : TypeId} {T : Nat}
    (h : hasEntry cs tid T = true) :
    (caster (CASTER_MAP cs) T tid).isSome = true := by
  rw [caster_eq_lookupLast, lookupLast_isSome_iff_hasEntry, h]

/-- The caster found for a hit is the registered generated caster: it targets
`T` and downcasts to exactly the concrete type under the first key component. -/
lemma caster_some_spec {cs : List (TypeId × Caster)} {tid : TypeId} {T : Nat}
    {c : Caster} (hwf : WellFormed cs)
    (h : caster (CASTER_MAP cs) T tid = some c) :
    (tid, c) ∈ cs ∧ c.target = T ∧ c = makeCaster tid T := by
  rw [caster_eq_lookupLast] at h
  obtain ⟨hmem, htid⟩ := lookupLast_CASTER_MAP_some h
  have htgt : c.target = T := typeIdOfCaster_injective htid
  refine ⟨hmem, htgt, ?_⟩
  have := hwf (tid, c) hmem
  simpa [htgt] using this

/-- `impls` agrees with entry existence on any built registry, well formed
or not. -/
lemma impls_eq_hasEntry (cs : List (TypeId × Caster)) (T : Nat) (s : Source) :
    impls (CASTER_MAP cs) T s = hasEntry cs (selfTypeId s) T := by
  rw [impls, containsKey_CASTER_MAP]

/-- With well-formed (generator-produced) entries, a hit always succeeds and
returns the erased view itself: the caster's internal downcast cannot panic. -/
lemma ref_to_ok_of_entry {cs : List (TypeId × Caster)} {T : Nat} {s : Source}
    (hwf : WellFormed cs) (h : hasEntry cs (ref_any s).tyId T = true) :
    ref_to (CASTER_MAP cs) T s = .ok (ref_any s) := by
  rw [ref_to]
  cases hc : caster (CASTER_MAP cs) T (ref_any s).tyId with
  | none =>
    have := caster_isSome_of_entry h
    rw [hc] at this
    simp at this
  | some c =>
    obtain ⟨-, -, hmk⟩ := caster_some_spec hwf hc
    subst hmk
    simp [makeCaster]

lemma mut_any_eq (s : Source) : mut_any s = ref_any s := by
  cases s <;> rfl

lemma box_any_eq (s : Source) : box_any s = ref_any s := by
  cases s <;> rfl

lemma ref_to_miss_of_no_entry {cs : List (TypeId × Caster)} {T : Nat} {s : Source}
    (h : hasEntry cs (ref_any s).tyId T = false) :
    ref_to (CASTER_MAP cs) T s = .miss := by
  simp only [ref_to]
  rw [caster_none_of_no_entry h]

lemma mut_to_miss_of_no_entry {cs : List (TypeId × Caster)} {T : Nat} {s : Source}
    (h : hasEntry cs (ref_any s).tyId T = false) :
    mut_to (CASTER_MAP cs) T s = .miss := by
  simp only [mut_to, mut_any_eq]
  rw [caster_none_of_no_entry h]

lemma box_to_miss_of_no_entry {cs : List (TypeId × Caster)} {T : Nat} {s : Source}
    (h : hasEntry cs (ref_any s).tyId T = false) :
    box_to (CASTER_MAP cs) T s = .miss := by
  simp only [box_to, box_any_eq]
  rw [caster_none_of_no_entry h]

lemma mut_to_ok_of_entry {cs : List (TypeId × Caster)} {T : Nat} {s : Source}
    (hwf : WellFormed cs) (h : hasEntry cs (ref_any s).tyId T = true) :
    mut_to (CASTER_MAP cs) T s = .ok (ref_any s) := by
  simp only [mut_to, mut_any_eq]
  cases hc : caster (CASTER_MAP cs) T (ref_any s).tyId with
  | none =>
    have := caster_isSome_of_entry h
    rw [hc] at this
    simp at this
  | some c =>
    obtain ⟨-, -, hmk⟩ := caster_some_spec hwf hc
    subst hmk
    simp [makeCaster]

lemma box_to_ok_of_entry {cs : List (TypeId × Caster)} {T : Nat} {s : Source}
    (hwf : WellFormed cs) (h : hasEntry cs (ref_any s).tyId T = true) :
    box_to (CASTER_MAP cs) T s = .ok (ref_any s) := by
  simp only [box_to, box_any_eq]
  cases hc : caster (CASTER_MAP cs) T (ref_any s).tyId with
  | none =>
    have := caster_isSome_of_entry h
    rw [hc] at this
    simp at this
  | some c =>
    obtain ⟨-, -, hmk⟩ := caster_some_spec hwf hc
    subst hmk
    simp [makeCaster]

/-- With at most one entry per key, the last-wins lookup coincides with plain
membership. -/
lemma lookupLast_some_of_mem {m : CasterMap} {k : TypeId × TypeId} {c : Caster}
    (hnd : (m.map Prod.fst).Nodup) (hmem : (k, c) ∈ m) :
    lookupLast m k = some c := by
  induction m with
  | nil => simp at hmem
  | cons e rest ih =>
    simp only [List.map_cons, List.nodup_cons] at hnd
    obtain ⟨hknot, hndr⟩ := hnd
    rcases List.mem_cons.mp hmem with he | hr
    · have hrest : lookupLast rest k = none := by
        cases hl : lookupLast rest k with
        | none => rfl
        | some c' =>
          have hmem' := lookupLast_mem hl
          have : k ∈ rest.map Prod.fst := List.mem_map_of_mem Prod.fst hmem'
          rw [← he] at hknot
          exact absurd this hknot
      rw [← he]
      simp [lookupLast, hrest]
    · have hsome := ih hndr hr
      simp [lookupLast, hsome]

lemma lookupLast_eq_of_perm {m m' : CasterMap} (hp : m.Perm m')
    (hnd : (m.map Prod.fst).Nodup) (k : TypeId × TypeId) :
    lookupLast m k = lookupLast m' k := by
  have hnd' : (m'.map Prod.fst).Nodup := ((hp.map Prod.fst).nodup_iff).mp hnd
  cases h : lookupLast m k with
  | some c =>
    have hm := lookupLast_mem h
    have hm' : (k, c) ∈ m' := hp.mem_iff.mp hm
    exact (lookupLast_some_of_mem hnd' hm').symm
  | none =>
    cases h' : lookupLast m' k with
    | none => rfl
    | some c =>
      have hm' := lookupLast_mem h'
      have hm : (k, c) ∈ m := hp.mem_iff.mpr hm'
      rw [lookupLast_some_of_mem hnd hm] at h
      simp at h

lemma wf_example : WellFormed exampleCasters := by
  intro e he
  simp only [exampleCasters, List.mem_singleton] at he
  subst he
  rfl

/-! ### Claims -/

/-- Claim C1, as stated, is false on the code: `box_to` returns
`Option<Box<T>>`, so on a miss (scenario C: owned `Widget` cast to the
unregistered `Serializable`) it returns the empty result and does NOT hand
the original owned handle back to the caller. -/
theorem c1_box_to_counterexample :
    box_to exampleMap serializableTrait (.traitObj renderableTrait widget) = .miss ∧
    box_to exampleMap serializableTrait (.traitObj renderableTrait widget) ≠ .ok widget := by
  constructor
  · decide
  · decide

/-- Claim C1 (amended): for an owned-handle cast whose target trait has no
registered entry for the handle's concrete runtime type, `box_to` fails by
returning the empty result (`None`); the owned handle was consumed by
`box_any` and is not returned to the caller. -/
theorem c1_box_to_miss (cs : List (TypeId × Caster)) (T : Nat) (s : Source)
    (h : hasEntry cs (ref_any s).tyId T = false) :
    box_to (CASTER_MAP cs) T s = .miss :=
  box_to_miss_of_no_entry h

/-- Witness for C1 (amended) at scenario C: owned `Widget` cast to the
unregistered `Serializable`. -/
theorem c1_box_to_miss_witness :
    hasEntry exampleCasters
        (ref_any (.traitObj renderableTrait widget)).tyId serializableTrait = false ∧
    box_to exampleMap serializableTrait (.traitObj renderableTrait widget) = .miss :=
  ⟨by decide,
   c1_box_to_miss exampleCasters serializableTrait (.traitObj renderableTrait widget)
     (by decide)⟩

/-- Claim C2: on a registry built from generator-produced registration
entries, `ref_to` returns a non-empty result exactly when an entry exists for
(runtime type of the erased value, target trait); and `impls` agrees exactly
with whether `ref_to` would succeed, using only the runtime type identity. -/
theorem c2_ref_to_iff_registered (cs : List (TypeId × Caster)) (hwf : WellFormed cs)
    (T : Nat) (s : Source) :
    ((ref_to (CASTER_MAP cs) T s).isOk = true ↔
      hasEntry cs (ref_any s).tyId T = true) ∧
    impls (CASTER_MAP cs) T s = (ref_to (CASTER_MAP cs) T s).isOk := by
  have key : (ref_to (CASTER_MAP cs) T s).isOk = hasEntry cs (ref_any s).tyId T := by
    cases h : hasEntry cs (ref_any s).tyId T with
    | false => rw [ref_to_miss_of_no_entry h]; rfl
    | true => rw [ref_to_ok_of_entry hwf h]; rfl
  constructor
  · rw [key]
  · rw [key, impls_eq_hasEntry]
    rfl

/-- Witness for C2 at scenario A/B: `Widget` through `Renderable`, target
`Describable` (registered). -/
theorem c2_ref_to_iff_registered_witness :
    WellFormed exampleCasters ∧
    (((ref_to exampleMap describableTrait (.traitObj renderableTrait widget)).isOk = true ↔
        hasEntry exampleCasters
          (ref_any (.traitObj renderableTrait widget)).tyId describableTrait = true) ∧
      impls exampleMap describableTrait (.traitObj renderableTrait widget) =
        (ref_to exampleMap describableTrait (.traitObj renderableTrait widget)).isOk) :=
  ⟨wf_example,
   c2_ref_to_iff_registered exampleCasters wf_example describableTrait
     (.traitObj renderableTrait widget)⟩

/-- Claim C3: every cast keys the registry lookup on the runtime identity of
the concrete value obtained from the erased view, never on the interface
through which the method is invoked: two sources with the same erased view
behave identically, the interface parameter of a trait-object reference is
irrelevant, and (scenario A) a `Widget` held through the unrelated
`Renderable` casts directly to `Describable`, the returned view observing the
`Widget` value itself. -/
theorem c3_lookup_keys_on_concrete_type :
    (∀ (m : CasterMap) (T : Nat) (s s' : Source), ref_any s = ref_any s' →
        ref_to m T s = ref_to m T s' ∧ mut_to m T s = mut_to m T s' ∧
        box_to m T s = box_to m T s' ∧ impls m T s = impls m T s') ∧
    (∀ (m : CasterMap) (T i j : Nat) (v : AnyVal),
        ref_to m T (.traitObj i v) = ref_to m T (.traitObj j v)) ∧
    ref_to exampleMap describableTrait (.traitObj renderableTrait widget) = .ok widget := by
  refine ⟨?_, ?_, ?_⟩
  · intro m T s s' h
    have hm : mut_any s = mut_any s' := by rw [mut_any_eq, mut_any_eq, h]
    have hb : box_any s = box_any s' := by rw [box_any_eq, box_any_eq, h]
    exact ⟨by simp only [ref_to, h], by simp only [mut_to, hm],
           by simp only [box_to, hb], by simp only [impls, selfTypeId, h]⟩
  · intro m T i j v
    rfl
  · decide

/-- Witness for C3: a fully erased `dyn Any` view and a `Renderable`
trait-object view of the same `Widget` erase identically, hence cast
identically. -/
theorem c3_lookup_keys_witness :
    ref_any (.dynAny widget) = ref_any (.traitObj renderableTrait widget) ∧
    ref_to exampleMap describableTrait (.dynAny widget) =
      ref_to exampleMap describableTrait (.traitObj renderableTrait widget) :=
  ⟨rfl,
   (c3_lookup_keys_on_concrete_type.1 exampleMap describableTrait
      (.dynAny widget) (.traitObj renderableTrait widget) rfl).1⟩

/-- Claim C4: the registry maps `(TypeId of the concrete type, TypeId of
Caster<T>)` to the boxed caster — every stored entry's key is exactly that
pair, lookups query exactly that key, and the second component is the
identity of the specialized caster type, which is injective in `T` and never
the identity of the trait-object type `T` itself. -/
theorem c4_registry_key_shape :
    (∀ (cs : List (TypeId × Caster)) (S : TypeId) (c : Caster), (S, c) ∈ cs →
        ((S, typeIdOfCaster c.target), c) ∈ CASTER_MAP cs) ∧
    (∀ (cs : List (TypeId × Caster)) (k : TypeId × TypeId) (c : Caster),
        (k, c) ∈ CASTER_MAP cs → k.2 = typeIdOfCaster c.target ∧ (k.1, c) ∈ cs) ∧
    (∀ (m : CasterMap) (T : Nat) (tid : TypeId),
        (caster m T tid).isSome = true →
        (lookupLast m (tid, typeIdOfCaster T)).isSome = true) ∧
    (∀ t : Nat, typeIdOfCaster t ≠ typeIdOfTrait t) ∧
    Function.Injective typeIdOfCaster := by
  refine ⟨?_, ?_, ?_, ?_, typeIdOfCaster_injective⟩
  · intro cs S c h
    exact List.mem_map_of_mem buildEntry h
  · intro cs k c h
    simp only [CASTER_MAP, List.mem_map] at h
    obtain ⟨⟨p1, p2⟩, hp, hbe⟩ := h
    simp only [buildEntry, Prod.mk.injEq] at hbe
    obtain ⟨hk, hc⟩ := hbe
    subst hc
    rw [← hk]
    exact ⟨rfl, hp⟩
  · intro m T tid h
    rw [caster] at h
    cases hl : lookupLast m (tid, typeIdOfCaster T) with
    | none => rw [hl] at h; simp at h
    | some c => simp
  · intro t h
    unfold typeIdOfCaster typeIdOfTrait at h
    omega

/-- Witness for C4: the scenario registry stores the `Widget`→`Describable`
caster under the key built from `Caster<Describable>`'s own `TypeId`. -/
theorem c4_registry_key_shape_witness :
    ((widgetTypeId, makeCaster widgetTypeId describableTrait) ∈ exampleCasters) ∧
    (((widgetTypeId, typeIdOfCaster (makeCaster widgetTypeId describableTrait).target),
        makeCaster widgetTypeId describableTrait) ∈ CASTER_MAP exampleCasters) :=
  ⟨List.mem_cons_self _ _,
   c4_registry_key_shape.1 exampleCasters widgetTypeId
     (makeCaster widgetTypeId describableTrait) (List.mem_cons_self _ _)⟩

/-- Claim C5: when the target trait has no registered entry for the value's
concrete runtime type — including a trait never registered for any type —
`ref_to` and `mut_to` return the empty result, `box_to` misses, `impls`
returns false, and no cast operation panics. -/
theorem c5_miss_is_benign (cs : List (TypeId × Caster)) (T : Nat) (s : Source)
    (h : hasEntry cs (ref_any s).tyId T = false) :
    ref_to (CASTER_MAP cs) T s = .miss ∧
    mut_to (CASTER_MAP cs) T s = .miss ∧
    box_to (CASTER_MAP cs) T s = .miss ∧
    impls (CASTER_MAP cs) T s = false ∧
    ref_to (CASTER_MAP cs) T s ≠ .panicked ∧
    mut_to (CASTER_MAP cs) T s ≠ .panicked ∧
    box_to (CASTER_MAP cs) T s ≠ .panicked := by
  have h1 := ref_to_miss_of_no_entry h
  have h2 := mut_to_miss_of_no_entry h
  have h3 := box_to_miss_of_no_entry h
  have h4 : impls (CASTER_MAP cs) T s = false := by
    rw [impls_eq_hasEntry]
    exact h
  refine ⟨h1, h2, h3, h4, ?_, ?_, ?_⟩ <;> simp [h1, h2, h3]

/-- Witness for C5 at scenario B: `Serializable` is never registered, so
every cast of a `Widget` to it misses without panicking. -/
theorem c5_miss_is_benign_witness :
    hasEntry exampleCasters
        (ref_any (.traitObj renderableTrait widget)).tyId serializableTrait = false ∧
    (ref_to exampleMap serializableTrait (.traitObj renderableTrait widget) = .miss ∧
     mut_to exampleMap serializableTrait (.traitObj renderableTrait widget) = .miss ∧
     box_to exampleMap serializableTrait (.traitObj renderableTrait widget) = .miss ∧
     impls exampleMap serializableTrait (.traitObj renderableTrait widget) = false ∧
     ref_to exampleMap serializableTrait (.traitObj renderableTrait widget) ≠ .panicked ∧
     mut_to exampleMap serializableTrait (.traitObj renderableTrait widget) ≠ .panicked ∧
     box_to exampleMap serializableTrait (.traitObj renderableTrait widget) ≠ .panicked) :=
  ⟨by decide,
   c5_miss_is_benign exampleCasters serializableTrait (.traitObj renderableTrait widget)
     (by decide)⟩

/-- Claim C6: casting from an already-fully-erased `dyn Any` view behaves
identically to casting from a typed interface reference (and from the sized
value itself) over the same underlying value, for `ref_to`, `mut_to`,
`box_to` and `impls` alike. -/
theorem c6_erasure_reflexivity :
    ∀ (m : CasterMap) (T : Nat) (v : AnyVal) (i : Nat),
      ref_to m T (.dynAny v) = ref_to m T (.traitObj i v) ∧
      mut_to m T (.dynAny v) = mut_to m T (.traitObj i v) ∧
      box_to m T (.dynAny v) = box_to m T (.traitObj i v) ∧
      impls m T (.dynAny v) = impls m T (.traitObj i v) ∧
      ref_to m T (.dynAny v) = ref_to m T (.sized v) ∧
      mut_to m T (.dynAny v) = mut_to m T (.sized v) ∧
      box_to m T (.dynAny v) = box_to m T (.sized v) ∧
      impls m T (.dynAny v) = impls m T (.sized v) := by
  intro m T v i
  exact ⟨rfl, rfl, rfl, rfl, rfl, rfl, rfl, rfl⟩

/-- Claim C7: repeated `impls` and `ref_to` calls on the same unchanged value
against the same built registry all return the same result, and the answer to
any query is a pure function of the registered entries (the lookup consults
the map without modifying it — modelled by the registry being an immutable
parameter of every operation). -/
theorem c7_idempotent :
    ∀ (m : CasterMap) (T : Nat) (s : Source) (n : Nat),
      implsCalls m T s n = List.replicate n (impls m T s) ∧
      refToCalls m T s n = List.replicate n (ref_to m T s) ∧
      (∀ cs : List (TypeId × Caster),
        impls (CASTER_MAP cs) T s = hasEntry cs (selfTypeId s) T) := by
  intro m T s n
  refine ⟨?_, ?_, fun cs => impls_eq_hasEntry cs T s⟩
  · induction n with
    | zero => rfl
    | succ n ih => simp [implsCalls, List.replicate, ih]
  · induction n with
    | zero => rfl
    | succ n ih => simp [refToCalls, List.replicate, ih]

/-- Claim C8: building the registry applies every registration constructor
exactly once — the built map is the keyed image of the evaluated constructor
list, one entry per constructor — and when the resulting keys are pairwise
distinct, the mapping's lookup behaviour is independent of the order in which
the entries are consumed. -/
theorem c8_build_once_order_independent :
    (∀ fs : List (Unit → TypeId × Caster),
        buildFromConstructors fs = CASTER_MAP (fs.map (fun f => f ())) ∧
        (buildFromConstructors fs).length = fs.length) ∧
    (∀ (cs cs' : List (TypeId × Caster)), cs.Perm cs' →
        ((CASTER_MAP cs).map Prod.fst).Nodup →
        ∀ k : TypeId × TypeId,
          lookupLast (CASTER_MAP cs) k = lookupLast (CASTER_MAP cs') k) := by
  constructor
  · intro fs
    constructor
    · rw [CASTER_MAP, List.map_map]
      rfl
    · rw [buildFromConstructors, List.length_map]
  · intro cs cs' hp hnd k
    exact lookupLast_eq_of_perm (hp.map buildEntry) hnd k

/-- Witness for C8: two distinct-key entries consumed in either order give
the same lookup result. -/
theorem c8_build_once_witness :
    twoCasters.Perm twoCastersSwapped ∧
    ((CASTER_MAP twoCasters).map Prod.fst).Nodup ∧
    lookupLast (CASTER_MAP twoCasters) (widgetTypeId, typeIdOfCaster describableTrait) =
      lookupLast (CASTER_MAP twoCastersSwapped)
        (widgetTypeId, typeIdOfCaster describableTrait) := by
  have hperm : twoCasters.Perm twoCastersSwapped := List.Perm.swap _ _ _
  have hnd : ((CASTER_MAP twoCasters).map Prod.fst).Nodup := by decide
  exact ⟨hperm, hnd,
    c8_build_once_order_independent.2 twoCasters twoCastersSwapped hperm hnd
      (widgetTypeId, typeIdOfCaster describableTrait)⟩

/-- Claim C9 (implicit): every entry stored in a built registry under key
`(s, c)` holds a caster whose own runtime `TypeId` equals `c` — the second
key component is computed from the stored value itself at build time — so a
lookup hit is never filtered out by the subsequent downcast (`caster`
coincides with the plain map lookup), and the caster returned is exactly the
one registered for that (concrete type, target trait) pair. -/
theorem c9_downcast_always_succeeds :
    (∀ (cs : List (TypeId × Caster)) (k : TypeId × TypeId) (c : Caster),
        lookupLast (CASTER_MAP cs) k = some c → k.2 = typeIdOfCaster c.target) ∧
    (∀ (cs : List (TypeId × Caster)) (T : Nat) (tid : TypeId),
        caster (CASTER_MAP cs) T tid =
          lookupLast (CASTER_MAP cs) (tid, typeIdOfCaster T)) ∧
    (∀ (cs : List (TypeId × Caster)) (T : Nat) (tid : TypeId) (c : Caster),
        caster (CASTER_MAP cs) T tid = some c → (tid, c) ∈ cs ∧ c.target = T) := by
  refine ⟨?_, caster_eq_lookupLast, ?_⟩
  · intro cs k c h
    have hmem := lookupLast_mem h
    simp only [CASTER_MAP, List.mem_map] at hmem
    obtain ⟨⟨p1, p2⟩, hp, hbe⟩ := hmem
    simp only [buildEntry, Prod.mk.injEq] at hbe
    obtain ⟨hk, hc⟩ := hbe
    subst hc
    rw [← hk]
    rfl
  · intro cs T tid c h
    rw [caster_eq_lookupLast] at h
    obtain ⟨hmem, htid⟩ := lookupLast_CASTER_MAP_some h
    exact ⟨hmem, typeIdOfCaster_injective htid⟩

/-- Witness for C9: the scenario registry's single entry is found under its
key and its stored caster's runtime `TypeId` equals the key's second
component. -/
theorem c9_downcast_witness :
    lookupLast (CASTER_MAP exampleCasters)
        (widgetTypeId, typeIdOfCaster describableTrait) =
      some (makeCaster widgetTypeId describableTrait) ∧
    (widgetTypeId, typeIdOfCaster describableTrait).2 =
      typeIdOfCaster (makeCaster widgetTypeId describableTrait).target := by
  have h : lookupLast (CASTER_MAP exampleCasters)
      (widgetTypeId, typeIdOfCaster describableTrait) =
      some (makeCaster widgetTypeId describableTrait) := rfl
  exact ⟨h,
    c9_downcast_always_succeeds.1 exampleCasters
      (widgetTypeId, typeIdOfCaster describableTrait)
      (makeCaster widgetTypeId describableTrait) h⟩

/-- Claim C10 (implicit): the blanket `CastFrom` impl for `Sized + 'static`
types returns the value itself as the erased view, so invoking a cast
directly on a smart-pointer wrapper keys the lookup on the wrapper type's own
`TypeId`: with the wrapped concrete type registered but the wrapper type not,
the wrapper's cast misses and `impls` is false, while the wrapped value's own
cast succeeds. -/
theorem c10_wrapper_keys_on_wrapper_type (cs : List (TypeId × Caster))
    (hwf : WellFormed cs) (w inner : AnyVal) (T : Nat)
    (hinner : hasEntry cs inner.tyId T = true)
    (hw : hasEntry cs w.tyId T = false) :
    ref_any (.sized w) = w ∧
    ref_to (CASTER_MAP cs) T (.sized w) = .miss ∧
    impls (CASTER_MAP cs) T (.sized w) = false ∧
    (ref_to (CASTER_MAP cs) T (.sized inner)).isOk = true := by
  refine ⟨rfl, ref_to_miss_of_no_entry hw, ?_, ?_⟩
  · rw [impls_eq_hasEntry]
    exact hw
  · have hinner' : hasEntry cs (ref_any (.sized inner)).tyId T = true := hinner
    rw [ref_to_ok_of_entry hwf hinner']
    rfl

/-- Witness for C10: a `Box<dyn Trait>` wrapper holding a `Widget` misses the
`Describable` cast that the `Widget` itself hits. -/
theorem c10_wrapper_witness :
    WellFormed exampleCasters ∧
    hasEntry exampleCasters widget.tyId describableTrait = true ∧
    hasEntry exampleCasters boxWidget.tyId describableTrait = false ∧
    (ref_any (.sized boxWidget) = boxWidget ∧
     ref_to (CASTER_MAP exampleCasters) describableTrait (.sized boxWidget) = .miss ∧
     impls (CASTER_MAP exampleCasters) describableTrait (.sized boxWidget) = false ∧
     (ref_to (CASTER_MAP exampleCasters) describableTrait (.sized widget)).isOk = true) :=
  ⟨wf_example, by decide, by decide,
   c10_wrapper_keys_on_wrapper_type exampleCasters wf_example boxWidget widget
     describableTrait (by decide) (by decide)⟩

end Intertrait
